import Mathlib

/-!
Verification of the plan→execute→reflect→refine workflow
(`workflow/main_workflow.py`, `agents/tool_agent.py`, `agents/planner_agent.py`).

The Python code manipulates JSON-like dictionaries; we embed those as
association lists over a small value type.  External collaborators (the
Groq LLM behind the planner/reflector, the Tavily search API, Python's
`eval` on an already-sanitised arithmetic string) are modelled as oracle
functions supplied as parameters; everything else is translated directly
from the source.
-/

namespace Workflow

/-- A JSON-ish scalar value as stored in the task/result dictionaries.
Nested containers never matter for the control flow we verify, so values
are kept flat. -/
inductive JVal where
  | jnull
  | jbool (b : Bool)
  | jint (n : Int)
  | jstr (s : String)
deriving DecidableEq, Repr

/-- A Python dict, as an association list (insertion ordered, keys unique
in every dict the code builds). -/
abbrev Dict := List (String × JVal)

/-- `d.get(k)` returning the stored value (`none` when the key is absent).
First occurrence wins, matching unique-keyed Python dicts. -/
def Dict.get : Dict → String → Option JVal
  | [], _ => none
  | (k1, v) :: rest, k => if k1 = k then some v else Dict.get rest k

/-- `k in d`. -/
def Dict.hasKey (d : Dict) (k : String) : Bool :=
  (Dict.get d k).isSome

/-- `d[k] = v`: overwrite the existing binding in place, else append. -/
def Dict.set : Dict → String → JVal → Dict
  | [], k, v => [(k, v)]
  | (k1, v1) :: rest, k, v =>
    if k1 = k then (k, v) :: rest else (k1, v1) :: Dict.set rest k v

/-- `d.update(upd)`: merge `upd`'s entries into `d` in order. -/
def Dict.updateWith (d upd : Dict) : Dict :=
  upd.foldl (fun acc kv => Dict.set acc kv.1 kv.2) d

/-- Collapse a JSON null to Python `None`: `d.get(k)` yields `None` both
when the key is absent and when it maps to null. -/
def optJ : Option JVal → Option JVal
  | some .jnull => none
  | x => x

/-- `d.get(k)` as seen by code that only distinguishes `None`. -/
def Dict.pyGet (d : Dict) (k : String) : Option JVal :=
  optJ (Dict.get d k)

/-- Python `==` on scalar values: booleans compare equal to the
corresponding integers (`True == 1`), otherwise structural. -/
def JVal.toIntVal : JVal → Option Int
  | .jint n => some n
  | .jbool b => some (if b then 1 else 0)
  | _ => none

def pyEq (a b : JVal) : Bool :=
  match a.toIntVal, b.toIntVal with
  | some x, some y => x = y
  | _, _ => a = b

/-- Python `==` lifted to possibly-`None` operands (`None == None` is
true, `None == v` is false for any value `v`). -/
def pyEqO : Option JVal → Option JVal → Bool
  | none, none => true
  | some a, some b => pyEq a b
  | _, _ => false

/-- Python truthiness of a scalar. -/
def JVal.truthy : JVal → Bool
  | .jnull => false
  | .jbool b => b
  | .jint n => n ≠ 0
  | .jstr s => s ≠ ""

/-- Truthiness of a `d.get(k)` outcome (`None` is falsy). -/
def truthyOpt : Option JVal → Bool
  | none => false
  | some v => v.truthy

/-- Python `str()` of a scalar, as used in f-strings. -/
def pyStr : JVal → String
  | .jnull => "None"
  | .jbool b => if b then "True" else "False"
  | .jint n => toString n
  | .jstr s => s

def pyStrOpt : Option JVal → String
  | none => "None"
  | some v => pyStr v

/-- Python `s[:n]`: the first `n` characters. -/
def pyTake (s : String) (n : Nat) : String :=
  ⟨s.data.take n⟩

/-- Whitespace stripped by `str.strip()` (the characters that can occur
in the strings this program strips). -/
def isPyWhitespace (c : Char) : Bool :=
  c = ' ' ∨ c = '\t' ∨ c = '\n' ∨ c = '\r'

/-- Python `s.strip()`. -/
def pyStrip (s : String) : String :=
  ⟨((s.data.dropWhile isPyWhitespace).reverse.dropWhile isPyWhitespace).reverse⟩

/-! ### Calculator capability (`agents/tool_agent.py`, `calculator`) -/

/-- The character whitelist `"0123456789+-*/.() "` shared by the
calculator tool and the planner's expression cleaning. -/
def calcAllowedChars : List Char := "0123456789+-*/.() ".data

/-- What the tool returns to its caller: a payload (we record its `str()`
image, the only view the workflow ever takes of it) or a raised
exception's message. -/
inductive DispatchOutcome where
  | ok (payload : String)
  | err (msg : String)
deriving DecidableEq, Repr

/-- The guard section of `calculator` before `eval` is reached: the
whitelist check, space removal, the empty check and the length check, in
source order.  `.ok s` means `eval` is invoked on exactly `s`. -/
def calculatorCheck (expr : String) : Except String String :=
  if ¬ expr.data.all (· ∈ calcAllowedChars) then
    .error "Invalid characters found in expression"
  else
    let cleaned : String := ⟨expr.data.filter (· ≠ ' ')⟩
    if cleaned = "" then .error "Expression is empty after cleaning"
    else if cleaned.length > 100 then .error "Expression too long after cleaning"
    else .ok cleaned

/-- The `calculator` tool.  `evalO` is the oracle standing for Python's
`eval` on the cleaned expression (external arithmetic).  A non-string
input makes the character loop raise, re-raised by the tool's handler. -/
def calculatorTool (evalO : String → DispatchOutcome) : JVal → DispatchOutcome
  | .jstr expr =>
    match calculatorCheck expr with
    | .error m => .err m
    | .ok cleaned => evalO cleaned
  | _ => .err "expression is not iterable"

/-! ### Planner task validation (`agents/planner_agent.py`) -/

/-- `PlannerAgent._clean_calculator_expression`: keep only whitelisted
characters, then `strip()`. -/
def clean_calculator_expression (expr : String) : String :=
  pyStrip ⟨expr.data.filter (· ∈ calcAllowedChars)⟩

/-- One raw item of the JSON array the planner parsed: a mapping, or any
non-mapping value (which `_fix_task_format` rejects with a
`TaskValidationError`, caught and skipped by `generate_plan`). -/
inductive PlanItem where
  | dict (d : Dict)
  | nonDict
deriving DecidableEq, Repr

/-- `PlannerAgent._fix_task_format` on a mapping: copy the required keys
that are present first, then every other key in order. -/
def fix_task_format (d : Dict) : Dict :=
  (["id", "description", "tool"].filterMap fun k => (Dict.get d k).map (k, ·))
  ++ d.filter fun kv => kv.1 ∉ ["id", "description", "tool"]

/-- `PlannerAgent._validate_task`: required keys present, `id` an
int-or-str (Python counts booleans as ints), `description` and `tool`
strings, `tool` in the allowed set. -/
def validate_task (t : Dict) : Bool :=
  Dict.hasKey t "id" && Dict.hasKey t "description" && Dict.hasKey t "tool" &&
  (match Dict.get t "id" with
   | some (.jint _) => true
   | some (.jbool _) => true
   | some (.jstr _) => true
   | _ => false) &&
  (match Dict.get t "description" with | some (.jstr _) => true | _ => false) &&
  (match Dict.get t "tool" with
   | some (.jstr s) => s = "search" || s = "calculator"
   | _ => false)

/-- The per-item pipeline of `PlannerAgent.generate_plan` (lines
245-263): fix the shape, validate, and for calculator tasks clean the
expression, dropping the task when cleaning empties it.  `none` means
the item is skipped. -/
def processPlannedTask : PlanItem → Option Dict
  | .nonDict => none
  | .dict d =>
    let t := fix_task_format d
    if validate_task t then
      if Dict.get t "tool" = some (.jstr "calculator") then
        match Dict.get t "description" with
        | some (.jstr desc) =>
          let c := clean_calculator_expression desc
          if c = "" then none else some (Dict.set t "description" (.jstr c))
        | _ => none
      else some t
    else none

/-! ### Tool Execution Adapter (`agents/tool_agent.py`, `ToolAgent`) -/

/-- The exception classes that cross function boundaries in this code
(`exceptions.py`, plus tenacity's `RetryError`). -/
inductive ExcKind where
  | planningError
  | jsonParsingError
  | taskExecutionError
  | reflectionError
  | retryError
  | otherExc
deriving DecidableEq, Repr

structure Exc where
  kind : ExcKind
  msg : String
deriving DecidableEq, Repr

/-- A result dict `{task_id, result, status}`.  `result` is recorded via
its `str()` image, the only view the response synthesizer takes; the
workflow always writes a `status`. -/
structure RResult where
  task_id : Option JVal
  result : String
  status : String
deriving DecidableEq, Repr

/-- One call of the (decorated) `execute_task` body: it either returns a
result dict or raises. -/
inductive ExecOutcome where
  | result (r : RResult)
  | raised (e : Exc)
deriving DecidableEq, Repr

/-- The external capabilities behind `ToolAgent.tools`: the Tavily-backed
`search` (fully external, given the raw description value) and Python's
`eval` inside `calculator` (given the cleaned expression). -/
structure ToolOracles where
  searchO : JVal → DispatchOutcome
  evalO : String → DispatchOutcome

/-- `task.get("id", "unknown_task")` as used for the result dict. -/
def execTaskId (t : Dict) : Option JVal :=
  match Dict.get t "id" with
  | none => some (.jstr "unknown_task")
  | some .jnull => none
  | some v => some v

/-- The three pre-dispatch validation raises of `ToolAgent.execute_task`
(lines 84-94), in source order; `some m` is the message of the
`TaskExecutionError` raised. -/
def validationError (t : Dict) : Option String :=
  let tid := pyStrOpt (execTaskId t)
  if ¬ truthyOpt (Dict.get t "tool") then
    some ("Task " ++ tid ++ " failed: Task missing tool field")
  else if ¬ (pyEqO (Dict.get t "tool") (some (.jstr "search")) ||
             pyEqO (Dict.get t "tool") (some (.jstr "calculator"))) then
    some ("Task " ++ tid ++ " failed: Unknown tool: " ++ pyStrOpt (Dict.get t "tool"))
  else if optJ (Dict.get t "description") = none then
    some ("Task " ++ tid ++ " failed: Task missing description field for tool input")
  else none

/-- Dispatch `self.tools[tool_name](description)` for a task that passed
validation. -/
def dispatchTool (o : ToolOracles) (t : Dict) : DispatchOutcome :=
  let desc := (Dict.get t "description").getD .jnull
  if pyEqO (Dict.get t "tool") (some (.jstr "search")) then o.searchO desc
  else calculatorTool o.evalO desc

/-- One attempt of `ToolAgent.execute_task`: validation raises escape the
body; any exception from dispatch is caught and converted into a failed
result dict (the body's `except RetryError` branch can only match a
`RetryError` raised by the dispatched tool itself, which neither tool
does, so it is never taken). -/
def execute_task_attempt (o : ToolOracles) (t : Dict) : ExecOutcome :=
  match validationError t with
  | some m => .raised ⟨.taskExecutionError, m⟩
  | none =>
    match dispatchTool o t with
    | .ok payload => .result ⟨execTaskId t, payload, "completed"⟩
    | .err m =>
      .result ⟨execTaskId t,
        "Error during execution of task " ++ pyStrOpt (execTaskId t) ++
          " (tool: " ++ pyStrOpt (Dict.get t "tool") ++ "): " ++ m,
        "failed"⟩

/-- tenacity's `wait_exponential(multiplier=1, min=2, max=10)`:
`clamp(multiplier * 2 ** attempt_number, min, max)`. -/
def wait_exponential (multiplier mn mx n : Nat) : Nat :=
  max mn (min (multiplier * 2 ^ n) mx)

/-- tenacity's `RetryError` wrapping the last attempt's exception.  The
real `str()` of a `RetryError` embeds a memory address; we record the
wrapped message instead. -/
def retryErrorExc (e : Exc) : Exc :=
  ⟨.retryError, "RetryError: " ++ e.msg⟩

deriving instance DecidableEq for Except

/-- The trace of one decorated call: how many attempts ran, the sleeps
tenacity inserted between them, and the final outcome (`error` = an
exception propagated out of the decorated call). -/
structure RetryTrace where
  attempts : Nat
  waits : List Nat
  outcome : Except Exc RResult
deriving DecidableEq, Repr

/-- The `@retry(stop=stop_after_attempt(...), wait=...)` wrapper: run the
attempt; on a raise, sleep and re-run until the attempt budget is spent,
then raise `RetryError` (tenacity's default `reraise=False`).
`attemptsLeft` is the remaining budget, `n` the 1-based attempt number. -/
def tenacityRun (wait : Nat → Nat) (attemptFn : Nat → ExecOutcome) :
    Nat → Nat → List Nat → RetryTrace
  | 0, n, ws => ⟨n - 1, ws.reverse, .error ⟨.retryError, "RetryError: no attempts"⟩⟩
  | 1, n, ws =>
    (match attemptFn n with
     | .result r => ⟨n, ws.reverse, .ok r⟩
     | .raised e => ⟨n, ws.reverse, .error (retryErrorExc e)⟩)
  | attemptsLeft + 2, n, ws =>
    (match attemptFn n with
     | .result r => ⟨n, ws.reverse, .ok r⟩
     | .raised _ => tenacityRun wait attemptFn (attemptsLeft + 1) (n + 1) (wait n :: ws))

/-- `ToolAgent.execute_task` as called by the workflow: the body wrapped
in `@retry(stop=stop_after_attempt(3), wait=wait_exponential(multiplier=1,
min=2, max=10))`. -/
def execute_task (o : ToolOracles) (t : Dict) : RetryTrace :=
  tenacityRun (wait_exponential 1 2 10) (fun _ => execute_task_attempt o t) 3 1 []

/-- The per-task part of `execute_step` (lines 58-69): append the result
dict, translating an escaped exception into a `failed_critically` /
`failed_unexpectedly` result. -/
def execute_step_one (o : ToolOracles) (t : Dict) : RResult :=
  match (execute_task o t).outcome with
  | .ok r => r
  | .error e =>
    match e.kind with
    | .taskExecutionError => ⟨optJ (Dict.get t "id"), e.msg, "failed_critically"⟩
    | _ => ⟨optJ (Dict.get t "id"), "Unexpected error: " ++ e.msg, "failed_unexpectedly"⟩

/-! ### Workflow state and steps (`workflow/main_workflow.py`) -/

/-- The `details` field of a refinement instruction: a JSON string that
is absent/`None`/empty (falsy); truthy but unusable (`json.loads`
rejects it, or it decodes to a value `dict.update` raises on before
merging anything — a number, boolean, null, bare string, or an array
whose first element is malformed); decodes to a JSON object (`parsed`);
or decodes to a JSON array that `dict.update` accepts as a key/value
sequence (`pairs`, e.g. `[["id", 2]]`).  For `pairs`, `l` holds the
string-keyed pairs merged before any malformed trailing element raised:
a trailing raise aborts only the logging, not the merge already done,
and non-string keys can never collide with the string keys this
workflow reads, so they are omitted.  The `add` branch raises on every
non-object decode before mutating anything (either `details["id"]`
indexing or the `"id" in details` probe fails), so `failed` and `pairs`
are both skipped there. -/
inductive Details where
  | absent
  | failed
  | parsed (d : Dict)
  | pairs (l : Dict)
deriving DecidableEq, Repr

/-- Truthiness of the `details` string: absent/`None`/`""` are falsy; a
non-empty string is truthy whether or not it parses. -/
def Details.truthy : Details → Bool
  | .absent => false
  | _ => true

/-- One refinement instruction dict, through the accessors `refine_step`
uses.  `none` models both an absent key and an explicit `null`. -/
structure Refinement where
  action : Option String
  task_id : Option JVal
  details : Details
deriving DecidableEq, Repr

/-- A reflection verdict.  `success`/`complete` record the truthiness of
the corresponding fields. -/
structure Reflection where
  success : Bool
  complete : Bool
  feedback : String
  refinements : List Refinement
deriving DecidableEq, Repr

/-- The `WorkflowState` TypedDict.  `reflection = none` models the empty
dict `{}`. -/
structure WState where
  query : String
  tasks : List Dict
  results : List RResult
  reflection : Option Reflection
  final_response : String
  iteration : Nat
  max_iterations : Nat
  error_message : String
deriving DecidableEq, Repr

/-- `state.get("reflection", {}).get("complete")`, as a truthiness. -/
def reflComplete (s : WState) : Bool :=
  match s.reflection with
  | none => false
  | some r => r.complete

/-- `state.get("reflection", {}).get("success")`, as a truthiness. -/
def reflSuccess (s : WState) : Bool :=
  match s.reflection with
  | none => false
  | some r => r.success

/-- `state.get("reflection", {}).get("refinements", [])`. -/
def reflRefinements (s : WState) : List Refinement :=
  match s.reflection with
  | none => []
  | some r => r.refinements

/-- `plan_step`: install the planner's output, or record a fatal error
and an empty task list when the planner raised. -/
def plan_step (planOut : Except Exc (List Dict)) (s : WState) : WState :=
  match planOut with
  | .ok ts => { s with tasks := ts }
  | .error e =>
    { s with
      tasks := [],
      error_message :=
        (match e.kind with
         | .planningError => "Critical error during task planning: " ++ e.msg
         | .jsonParsingError => "Critical error during task planning: " ++ e.msg
         | _ => "Unexpected critical error during task planning: " ++ e.msg) }

/-- `execute_step`: with no tasks, record the fatal error `"Planning
failed to produce any tasks."` (unless one is already recorded) and an
empty result list; otherwise run every task through the adapter. -/
def execute_step (o : ToolOracles) (s : WState) : WState :=
  if s.tasks = [] then
    { s with
      results := [],
      error_message :=
        if s.error_message = "" then "Planning failed to produce any tasks."
        else s.error_message }
  else
    { s with results := s.tasks.map (execute_step_one o) }

/-- `reflect_step`: substitute a synthetic failing verdict when there is
nothing to reflect on or a fatal error is pending; otherwise take the
reflector's verdict (`verdict` is the call to
`reflector.evaluate_results`, `.error` = it raised). -/
def reflect_step (verdict : Except Exc Reflection) (s : WState) : WState :=
  if s.results = [] ∧ s.error_message = "" then
    let fb :=
      if s.tasks = [] then "No tasks were planned."
      else "No tasks were executed or no results produced."
    { s with reflection := some ⟨false, false, fb, []⟩ }
  else if s.error_message ≠ "" then
    { s with reflection := some ⟨false, false, s.error_message, []⟩ }
  else
    match verdict with
    | .ok r => { s with reflection := some r }
    | .error e =>
      let m :=
        match e.kind with
        | .reflectionError => "Critical error during result reflection: " ++ e.msg
        | .jsonParsingError => "Critical error during result reflection: " ++ e.msg
        | _ => "Unexpected critical error during result reflection: " ++ e.msg
      { s with reflection := some ⟨false, false, m, []⟩, error_message := m }

/-- `should_continue_decision`: increment the iteration counter, then
resolve to `"refine_tasks"` or `"end_workflow"` through the five checks
in source order.  Returns the mutated state together with the edge
name. -/
def should_continue_decision (s : WState) : WState × String :=
  let t := { s with iteration := s.iteration + 1 }
  if t.error_message ≠ "" then (t, "end_workflow")
  else if t.iteration ≥ t.max_iterations then (t, "end_workflow")
  else if reflComplete t ∧ reflSuccess t then (t, "end_workflow")
  else if (t.results.all fun r => r.status = "completed") ∧ ¬ reflComplete t then
    (t, "end_workflow")
  else if reflRefinements t ≠ [] ∧ t.iteration < t.max_iterations then
    (t, "refine_tasks")
  else (t, "end_workflow")

/-- The integer ids currently present in the task list, as collected by
`[t.get("id", 0) for t in current_tasks if isinstance(t.get("id"), int)]`
(Python's `isinstance` counts booleans as ints). -/
def intIds (tasks : List Dict) : List Int :=
  tasks.filterMap fun t =>
    match Dict.get t "id" with
    | some (.jint n) => some n
    | some (.jbool b) => some (if b then 1 else 0)
    | _ => none

/-- `max([... integer ids ...], default=0)`. -/
def maxIntId (tasks : List Dict) : Int :=
  match intIds tasks with
  | [] => 0
  | x :: xs => xs.foldl max x

/-- The `modify` loop: merge `details` into the first task whose id
equals `task_id` (Python `==`), leaving the rest untouched. -/
def modifyFirst : List Dict → JVal → Dict → List Dict
  | [], _, _ => []
  | t :: ts, tid, d =>
    if pyEqO (Dict.pyGet t "id") (some tid) then Dict.updateWith t d :: ts
    else t :: modifyFirst ts tid d

/-- One iteration of the refinement loop of `refine_step` (lines
158-199), threading the `new_task_id_counter`.  A `details` string that
fails to decode, and any other malformed instruction, leaves the state
unchanged (the handlers log and continue) — except that `modify`'s
`task.update` also accepts a decoded array of key/value pairs and
merges it into the matching task just like an object payload; an `add`
whose details decode to a non-object always raises before mutating and
is skipped. -/
def applyRef (st : Int × List Dict) (r : Refinement) : Int × List Dict :=
  let counter := st.1
  let tasks := st.2
  if r.action = some "remove" ∧ r.task_id ≠ none then
    (counter, tasks.filter fun t => ¬ pyEqO (Dict.pyGet t "id") r.task_id)
  else if r.action = some "modify" ∧ r.task_id ≠ none ∧ r.details.truthy then
    match r.details, r.task_id with
    | .parsed d, some tid => (counter, modifyFirst tasks tid d)
    | .pairs l, some tid => (counter, modifyFirst tasks tid l)
    | _, _ => (counter, tasks)
  else if r.action = some "add" ∧ r.details.truthy then
    match r.details with
    | .parsed d =>
      let p : Dict × Int :=
        if Dict.pyGet d "id" = none then (Dict.set d "id" (.jint counter), counter + 1)
        else (d, counter)
      if Dict.hasKey p.1 "id" ∧ Dict.hasKey p.1 "description" ∧ Dict.hasKey p.1 "tool" then
        (p.2, tasks ++ [p.1])
      else (p.2, tasks)
    | _ => (counter, tasks)
  else (counter, tasks)

/-- `refine_step`: with no refinement instructions return the state
unchanged (the early return at line 151 skips the clearing); otherwise
fold the instructions over the task list with the fresh-id counter
seeded once from the current maximum integer id, then clear the result
list, the verdict and the fatal-error flag. -/
def refine_step (s : WState) : WState :=
  let refs := reflRefinements s
  if refs = [] then s
  else
    let p := refs.foldl applyRef (maxIntId s.tasks + 1, s.tasks)
    { s with tasks := p.2, results := [], reflection := none, error_message := "" }

/-- The payloads of the completed results, in order. -/
def successPayloads (results : List RResult) : List String :=
  results.filterMap fun r => if r.status = "completed" then some r.result else none

/-- The `"Task {id} failed: {result}"` lines for the non-completed
results. -/
def failedInfos (results : List RResult) : List String :=
  results.filterMap fun r =>
    if r.status = "completed" then none
    else some ("Task " ++ pyStrOpt r.task_id ++ " failed: " ++ r.result)

/-- The `response_parts` list built by `generate_response_step` (lines
216-235): the enumerated completed payloads each truncated to their
first 500 characters, the failed-task lines, and the fallback texts when
both lists are empty. -/
def responseParts (s : WState) : List String :=
  let succ := successPayloads s.results
  let fail := failedInfos s.results
  let parts :=
    (if succ = [] then []
     else "Successfully completed tasks yielded:" ::
       (succ.enumFrom 1).map fun ip => toString ip.1 ++ ". " ++ pyTake ip.2 500)
    ++
    (if fail = [] then [] else "\nSome tasks encountered issues:" :: fail)
  if parts = [] then
    (match s.reflection with
     | none => "Workflow concluded. No specific results to report."
     | some r => r.feedback)
    :: (if s.tasks = [] ∧ s.results = [] then ["No tasks were planned or executed."] else [])
  else parts

/-- `generate_response_step`: a fatal error becomes the response
verbatim; otherwise join the parts and `strip()`. -/
def generate_response_step (s : WState) : WState :=
  if s.error_message ≠ "" then { s with final_response := s.error_message }
  else { s with final_response := pyStrip (String.intercalate "\n" (responseParts s)) }

/-! ### The graph loop (`create_workflow` / `run_workflow`) -/

/-- One round is execute→reflect→decide; on `"refine_tasks"` the engine
runs and control returns to execution, on `"end_workflow"` the response
is synthesized and the run ends.  `oraclesFor`/`verdictFor` give the
external tool behaviour and the reflector's verdict for each round.
The second component counts the refine transitions taken.  The
definition's termination argument is exactly the controller's: a refine
transition requires the just-incremented iteration counter to still be
below `max_iterations`. -/
def runRounds (oraclesFor : Nat → ToolOracles) (verdictFor : Nat → Except Exc Reflection)
    (s : WState) (round : Nat) : WState × Nat :=
  if h : (should_continue_decision
      (reflect_step (verdictFor round) (execute_step (oraclesFor round) s))).2
      = "refine_tasks" then
    let rest := runRounds oraclesFor verdictFor
      (refine_step (should_continue_decision
        (reflect_step (verdictFor round) (execute_step (oraclesFor round) s))).1)
      (round + 1)
    (rest.1, rest.2 + 1)
  else
    (generate_response_step (should_continue_decision
      (reflect_step (verdictFor round) (execute_step (oraclesFor round) s))).1, 0)
termination_by s.max_iterations - s.iteration
decreasing_by
  have hexec : ∀ (o : ToolOracles) (st : WState),
      (execute_step o st).iteration = st.iteration ∧
      (execute_step o st).max_iterations = st.max_iterations := by
    intro o st
    unfold execute_step
    split <;> exact ⟨rfl, rfl⟩
  have hrefl : ∀ (v : Except Exc Reflection) (st : WState),
      (reflect_step v st).iteration = st.iteration ∧
      (reflect_step v st).max_iterations = st.max_iterations := by
    intro v st
    unfold reflect_step
    dsimp only
    repeat' split
    all_goals exact ⟨rfl, rfl⟩
  have hrefine : ∀ st : WState,
      (refine_step st).iteration = st.iteration ∧
      (refine_step st).max_iterations = st.max_iterations := by
    intro st
    unfold refine_step
    dsimp only
    repeat' split
    all_goals exact ⟨rfl, rfl⟩
  have hdec : ∀ st : WState,
      (should_continue_decision st).1.iteration = st.iteration + 1 ∧
      (should_continue_decision st).1.max_iterations = st.max_iterations := by
    intro st
    unfold should_continue_decision
    dsimp only
    repeat' split
    all_goals exact ⟨rfl, rfl⟩
  have hdec2 : ∀ st : WState, (should_continue_decision st).2 = "refine_tasks" →
      st.iteration + 1 < st.max_iterations := by
    intro st hs
    by_cases hlt : st.iteration + 1 < st.max_iterations
    · exact hlt
    · exfalso
      unfold should_continue_decision at hs
      dsimp only at hs
      repeat' split at hs
      all_goals simp_all
  obtain ⟨he1, he2⟩ := hexec (oraclesFor round) s
  obtain ⟨hr1, hr2⟩ :=
    hrefl (verdictFor round) (execute_step (oraclesFor round) s)
  obtain ⟨hd1, hd2⟩ :=
    hdec (reflect_step (verdictFor round) (execute_step (oraclesFor round) s))
  obtain ⟨hf1, hf2⟩ := hrefine
    ((should_continue_decision
        (reflect_step (verdictFor round) (execute_step (oraclesFor round) s))).1)
  have hlt := hdec2 _ h
  simp only [hf1, hf2, hd1, hd2, hr1, hr2, he1, he2]
  omega

/-- The initial state built by `run_workflow`. -/
def initState (query : String) (max_iterations : Nat) : WState :=
  ⟨query, [], [], none, "", 0, max_iterations, ""⟩

/-- A whole run: plan, then rounds until the controller ends the
workflow.  Returns the final state and the number of refine
transitions. -/
def run_workflow_model (planOut : Except Exc (List Dict))
    (oraclesFor : Nat → ToolOracles) (verdictFor : Nat → Except Exc Reflection)
    (query : String) (max_iterations : Nat) : WState × Nat :=
  runRounds oraclesFor verdictFor (plan_step planOut (initState query max_iterations)) 0

/-! ### Definitions used to state the claims -/

/-- The id value of every task in the list, as the code reads them. -/
def idList (tasks : List Dict) : List (Option JVal) :=
  tasks.map fun t => Dict.pyGet t "id"

/-- The integer value of a stored id, exactly as `intIds` extracts it. -/
def idToInt : Option JVal → Option Int
  | some (.jint n) => some n
  | some (.jbool b) => some (if b then 1 else 0)
  | _ => none

/-- Task ids are pairwise distinct under Python equality. -/
abbrev uniqueIds (tasks : List Dict) : Prop :=
  (idList tasks).Pairwise fun a b => pyEqO a b = false

/-- An instruction that makes `refine_step` assign a fresh counter id: an
`add` whose decoded details carry no id (or a null id). -/
def refAssignsId (r : Refinement) : Bool :=
  if r.action = some "add" then
    match r.details with
    | .parsed d => Dict.pyGet d "id" = none
    | _ => false
  else false

/-- The ids handed out to the id-less `add`s of a round, given the
starting counter. -/
def assignedIds : Int → List Refinement → List Int
  | _, [] => []
  | c, r :: rs =>
    if refAssignsId r then c :: assignedIds (c + 1) rs else assignedIds c rs

/-- A `modify` payload that cannot touch ids: whatever mapping
`task.update` merges — a decoded object or a decoded key/value-pair
array — has no `id` key (payloads `update` rejects outright are skipped
anyway). -/
def safeModifyDetails : Details → Bool
  | .parsed d => !(Dict.hasKey d "id")
  | .pairs l => !(Dict.hasKey l "id")
  | _ => true

/-- An `add` payload with an omitted or null id (undecodable payloads
are skipped anyway). -/
def safeAddDetails : Details → Bool
  | .parsed d => Dict.pyGet d "id" = none
  | _ => true

/-- Instructions that never introduce an explicit id: removes, modifies
whose payload has no `id` key, and adds with an omitted/null id
(malformed payloads are fine — they are skipped). -/
abbrev SafeRef (r : Refinement) : Prop :=
  (r.action = some "modify" → safeModifyDetails r.details = true)
  ∧ (r.action = some "add" → safeAddDetails r.details = true)

/-! ### Concrete inputs used by counterexamples and witnesses -/

/-- Oracles for concrete runs: the search capability raises, arithmetic
evaluation raises (their behaviour is irrelevant to the statements that
use them unless noted). -/
def cOracles : ToolOracles :=
  ⟨fun _ => .err "boom", fun _ => .err "boom"⟩

/-- An `add` instruction carrying an explicit id 2. -/
def egAddExplicit2 : Refinement :=
  ⟨some "add", none,
   .parsed [("id", .jint 2), ("description", .jstr "extra"), ("tool", .jstr "search")]⟩

/-- An `add` instruction whose details omit the id. -/
def egAddOmitted : Refinement :=
  ⟨some "add", none, .parsed [("description", .jstr "extra2"), ("tool", .jstr "search")]⟩

/-- An `add` instruction whose explicit id 1 duplicates an existing
task's id. -/
def egAddExplicit1 : Refinement :=
  ⟨some "add", none,
   .parsed [("id", .jint 1), ("description", .jstr "dup"), ("tool", .jstr "search")]⟩

/-- A one-task list with integer id 1. -/
def egTasks1 : List Dict :=
  [[("id", .jint 1), ("description", .jstr "2+2"), ("tool", .jstr "calculator")]]

/-- A completed result for task 1. -/
def egResult1 : RResult := ⟨some (.jint 1), "4.0", "completed"⟩

/-- A decision-time state where every result is completed, the verdict
says `complete` but not `success`, and refinements are pending. -/
def c1State : WState :=
  ⟨"q", egTasks1, [egResult1],
   some ⟨false, true, "done but wrong", [egAddOmitted]⟩, "", 0, 3, ""⟩

/-- A decision-time state with all results completed and a verdict that
does not report `complete`. -/
def c1wState : WState :=
  ⟨"q", egTasks1, [egResult1],
   some ⟨true, false, "keep going", [egAddOmitted]⟩, "", 0, 3, ""⟩

/-- A failed result for task 1. -/
def egFailedResult1 : RResult := ⟨some (.jint 1), "boom", "failed"⟩

/-- A state entering refinement with an explicit-id `add` followed by an
id-less `add`. -/
def c6State : WState :=
  ⟨"q", egTasks1, [egFailedResult1],
   some ⟨false, false, "f", [egAddExplicit2, egAddOmitted]⟩, "", 1, 3, ""⟩

/-- A state entering refinement with an `add` whose explicit id collides
with task 1. -/
def c8State : WState :=
  ⟨"q", egTasks1, [], some ⟨false, false, "f", [egAddExplicit1]⟩, "", 1, 3, ""⟩

/-- A state entering refinement with only safe instructions: a remove of
task 1 and an id-less add. -/
def c8wState : WState :=
  ⟨"q", egTasks1, [], some ⟨false, false, "f",
    [⟨some "remove", some (.jint 1), .failed⟩, egAddOmitted]⟩, "", 1, 3, ""⟩

/-- A task naming an unregistered capability. -/
def c3Task : Dict :=
  [("id", .jint 1), ("description", .jstr "2+2"), ("tool", .jstr "teleport")]

/-- A valid search task (its dispatch will raise under `cOracles`). -/
def c4Task : Dict :=
  [("id", .jint 1), ("description", .jstr "latest news"), ("tool", .jstr "search")]

/-- A 501-character payload. -/
def longPayload : String := ⟨List.replicate 501 'a'⟩

/-- A respond-time state holding one completed result whose payload has
501 characters. -/
def c10State : WState :=
  ⟨"q", egTasks1, [⟨some (.jint 1), longPayload, "completed"⟩], none, "", 3, 3, ""⟩

/-- A raw planned calculator item whose description carries disallowed
characters around an expression. -/
def c9Item : PlanItem :=
  .dict [("id", .jint 1), ("description", .jstr "calculate 2 + 2"), ("tool", .jstr "calculator")]

/-! ## Theorems

Shared facts about the steps, then one theorem per claim (with its
counterexample/witness where required). -/

theorem should_continue_decision_fst (s : WState) :
    (should_continue_decision s).1 = { s with iteration := s.iteration + 1 } := by
  unfold should_continue_decision
  dsimp only
  repeat' split
  all_goals rfl

theorem decision_refine_refinements (s : WState)
    (h : (should_continue_decision s).2 = "refine_tasks") :
    reflRefinements s ≠ [] := by
  unfold should_continue_decision at h
  dsimp only at h
  repeat' split at h
  all_goals simp_all [reflRefinements]

/-- C1, as stated, is false: with every result completed and a verdict
reporting `complete` without `success`, pending refinements still send
the controller to the refine step (decision rule 4 requires the verdict
NOT to report `complete`; rule 3 requires both flags). -/
theorem c1_counterexample :
    (∀ r ∈ c1State.results, r.status = "completed")
    ∧ ¬ (reflComplete c1State = true ∧ reflSuccess c1State = true)
    ∧ (should_continue_decision c1State).2 = "refine_tasks" := by
  decide

/-- C1 (amended): whenever every result in the round is `completed` and
the verdict does not report `complete`, the controller resolves to
respond (`"end_workflow"`), whatever the refinements are. -/
theorem c1_all_completed_not_complete_responds (s : WState)
    (hall : ∀ r ∈ s.results, r.status = "completed")
    (hnc : reflComplete s = false) :
    (should_continue_decision s).2 = "end_workflow" := by
  unfold should_continue_decision
  dsimp only
  repeat' split
  all_goals simp_all [reflComplete]

theorem c1_all_completed_not_complete_responds_witness :
    (should_continue_decision c1wState).2 = "end_workflow" :=
  c1_all_completed_not_complete_responds c1wState (by decide) (by decide)

/-- C7: whenever the controller takes the refine transition, the state
the refinement engine hands back to execution has an empty result list,
a cleared reflection verdict and a cleared fatal-error flag (the early
return that skips the clearing is unreachable, because the refine edge
requires a non-empty refinement list). -/
theorem c7_refine_clears_round_state (s : WState)
    (h : (should_continue_decision s).2 = "refine_tasks") :
    (refine_step (should_continue_decision s).1).results = []
    ∧ (refine_step (should_continue_decision s).1).reflection = none
    ∧ (refine_step (should_continue_decision s).1).error_message = "" := by
  have h2 := decision_refine_refinements s h
  rw [should_continue_decision_fst s]
  unfold refine_step
  dsimp only
  split
  · next hempty => exact absurd hempty h2
  · exact ⟨rfl, rfl, rfl⟩

theorem c7_refine_clears_round_state_witness :
    (refine_step (should_continue_decision c6State).1).results = []
    ∧ (refine_step (should_continue_decision c6State).1).reflection = none
    ∧ (refine_step (should_continue_decision c6State).1).error_message = "" :=
  c7_refine_clears_round_state c6State (by decide)

theorem runRounds_end (oraclesFor : Nat → ToolOracles)
    (verdictFor : Nat → Except Exc Reflection) (s : WState) (round : Nat)
    (h : (should_continue_decision
        (reflect_step (verdictFor round) (execute_step (oraclesFor round) s))).2
        ≠ "refine_tasks") :
    runRounds oraclesFor verdictFor s round
      = (generate_response_step (should_continue_decision
          (reflect_step (verdictFor round) (execute_step (oraclesFor round) s))).1, 0) := by
  rw [runRounds, dif_neg h]

/-- C2, as stated, is false: when the planner returns no items, the
execute step records the fatal error "Planning failed to produce any
tasks.", and the final response is that error message — not the "No
tasks were planned or executed." statement (which is unreachable here
because the fatal error short-circuits response synthesis). -/
theorem c2_counterexample :
    (run_workflow_model (.ok []) (fun _ => cOracles)
        (fun _ => .ok ⟨true, true, "ok", []⟩) "q" 3).1.error_message ≠ ""
    ∧ (run_workflow_model (.ok []) (fun _ => cOracles)
        (fun _ => .ok ⟨true, true, "ok", []⟩) "q" 3).1.final_response
      = "Planning failed to produce any tasks." := by
  unfold run_workflow_model
  rw [runRounds_end]
  · exact ⟨by decide, by decide⟩
  · exact fun hc => absurd (id hc : "end_workflow" = "refine_tasks") (by decide)

/-- C2 (amended): for every run in which the Planner returns no task
items at all, the execute step records the fatal error "Planning failed
to produce any tasks." and the final response is exactly that error
message. -/
theorem c2_empty_plan_reports_planning_failure (oraclesFor : Nat → ToolOracles)
    (verdictFor : Nat → Except Exc Reflection) (query : String) (max_iterations : Nat) :
    (run_workflow_model (.ok []) oraclesFor verdictFor query max_iterations).1.error_message
      = "Planning failed to produce any tasks."
    ∧ (run_workflow_model (.ok []) oraclesFor verdictFor query max_iterations).1.final_response
      = "Planning failed to produce any tasks." := by
  unfold run_workflow_model
  rw [runRounds_end]
  · exact ⟨rfl, rfl⟩
  · exact fun hc => absurd (id hc : "end_workflow" = "refine_tasks") (by decide)

/-- C3, as stated, is false: a task naming an unrecognized capability
makes the adapter raise a `TaskExecutionError`; the `@retry` decorator
wraps the whole method, so the raise is retried three times and a
`RetryError` then propagates past the adapter's boundary — there is no
immediate failed Result and no absence of retries. -/
theorem c3_counterexample :
    (execute_task cOracles c3Task).attempts = 3
    ∧ (execute_task cOracles c3Task).waits = [2, 4]
    ∧ (execute_task cOracles c3Task).outcome
      = .error (retryErrorExc ⟨.taskExecutionError, "Task 1 failed: Unknown tool: teleport"⟩) := by
  decide

/-- C3 (amended): a task that fails pre-dispatch validation (missing or
falsy `tool`, unrecognized capability, or `None` description) makes the
adapter raise; the decorator retries the whole call three times (waits 2
then 4) and a `RetryError` crosses the adapter boundary; the workflow's
execute step catches it and records a per-task result with status
`failed_unexpectedly` (not the adapter-built failed Result). -/
theorem c3_validation_failure_retried_and_raises (o : ToolOracles) (t : Dict) (e : String)
    (h : validationError t = some e) :
    execute_task o t
      = ⟨3, [2, 4], .error (retryErrorExc ⟨.taskExecutionError, e⟩)⟩
    ∧ (execute_step_one o t).status = "failed_unexpectedly" := by
  have hatt : (fun _ : Nat => execute_task_attempt o t)
      = (fun _ : Nat => ExecOutcome.raised ⟨.taskExecutionError, e⟩) := by
    funext n
    unfold execute_task_attempt
    rw [h]
  have hrun : execute_task o t
      = ⟨3, [2, 4], .error (retryErrorExc ⟨.taskExecutionError, e⟩)⟩ := by
    unfold execute_task
    rw [hatt]
    rfl
  refine ⟨hrun, ?_⟩
  unfold execute_step_one
  rw [hrun]
  rfl

theorem c3_validation_failure_retried_and_raises_witness :
    validationError c3Task = some "Task 1 failed: Unknown tool: teleport"
    ∧ (execute_step_one cOracles c3Task).status = "failed_unexpectedly" :=
  ⟨by decide,
   (c3_validation_failure_retried_and_raises cOracles c3Task
     "Task 1 failed: Unknown tool: teleport" (by decide)).2⟩

/-- C4: the code at the failing input.  For a valid search task whose
capability raises, the dispatch call is NOT retried: the attempt's
`except Exception` handler converts the raise into a failed Result, the
decorator sees a normal return, and the adapter returns after exactly one
attempt with no backoff sleeps and a message that does not note retry
exhaustion — contradicting the claimed 3-attempt retry of dispatch. -/
theorem c4_dispatch_failure_not_retried :
    execute_task cOracles c4Task
      = ⟨1, [], .ok ⟨some (.jint 1),
          "Error during execution of task 1 (tool: search): boom", "failed"⟩⟩ := by
  decide

theorem mem_of_mem_dropWhileP {α : Type} (p : α → Bool) (l : List α) (a : α)
    (h : a ∈ l.dropWhile p) : a ∈ l := by
  induction l with
  | nil => simp at h
  | cons x xs ih =>
    rw [List.dropWhile_cons] at h
    by_cases hp : p x = true
    · simp only [hp, if_true] at h
      exact List.mem_cons_of_mem x (ih h)
    · simp only [hp, if_false] at h
      exact h

theorem mem_of_mem_pyStrip (s : String) (c : Char) (h : c ∈ (pyStrip s).data) :
    c ∈ s.data := by
  unfold pyStrip at h
  simp only [List.mem_reverse] at h
  have h2 := mem_of_mem_dropWhileP isPyWhitespace _ _ h
  simp only [List.mem_reverse] at h2
  exact mem_of_mem_dropWhileP isPyWhitespace _ _ h2

theorem Dict.get_set_self (d : Dict) (k : String) (v : JVal) :
    Dict.get (Dict.set d k v) k = some v := by
  induction d with
  | nil => simp [Dict.set, Dict.get]
  | cons kv rest ih =>
    obtain ⟨k1, v1⟩ := kv
    by_cases hk : k1 = k
    · simp [Dict.set, Dict.get, hk]
    · simp [Dict.set, Dict.get, hk, ih]

theorem Dict.get_set_ne (d : Dict) (k k1 : String) (v : JVal) (hk : k1 ≠ k) :
    Dict.get (Dict.set d k v) k1 = Dict.get d k1 := by
  induction d with
  | nil =>
    simp only [Dict.set, Dict.get]
    rw [if_neg (Ne.symm hk)]
  | cons kv rest ih =>
    obtain ⟨k2, v2⟩ := kv
    simp only [Dict.set]
    by_cases h2 : k2 = k
    · subst h2
      rw [if_pos rfl]
      simp only [Dict.get]
      rw [if_neg (Ne.symm hk), if_neg (Ne.symm hk)]
    · rw [if_neg h2]
      simp only [Dict.get]
      by_cases h3 : k2 = k1
      · rw [if_pos h3, if_pos h3]
      · rw [if_neg h3, if_neg h3, ih]

theorem clean_calculator_expression_allowed (expr : String) :
    (clean_calculator_expression expr).data.all (· ∈ calcAllowedChars) = true := by
  rw [List.all_eq_true]
  intro c hc
  have h1 := mem_of_mem_pyStrip _ _ hc
  rw [List.mem_filter] at h1
  exact h1.2

/-- C9: (1) the planner's cleaning keeps only whitelisted characters;
(2) a calculator task surviving planning carries a non-empty, fully
whitelisted description (tasks whose description cleans to empty are
dropped); (3) independently of where a calculator task came from
(planning or refinement), any string the calculator hands to `eval`
consists of whitelisted characters only — so no character outside
`0-9 + - * / . ( ) space` ever reaches arithmetic evaluation. -/
theorem c9_calculator_charset :
    (∀ expr : String,
      (clean_calculator_expression expr).data.all (· ∈ calcAllowedChars) = true)
    ∧ (∀ (item : PlanItem) (t : Dict) (d : String),
        processPlannedTask item = some t
        → Dict.get t "tool" = some (.jstr "calculator")
        → Dict.get t "description" = some (.jstr d)
        → d ≠ "" ∧ d.data.all (· ∈ calcAllowedChars) = true)
    ∧ (∀ expr s : String, calculatorCheck expr = .ok s
        → s.data.all (· ∈ calcAllowedChars) = true) := by
  refine ⟨clean_calculator_expression_allowed, ?_, ?_⟩
  · intro item t d hproc htool hdesc
    cases item with
    | nonDict => simp [processPlannedTask] at hproc
    | dict d0 =>
      unfold processPlannedTask at hproc
      dsimp only at hproc
      split at hproc
      · split at hproc
        · next hcalc =>
          split at hproc
          · next desc hd =>
            split at hproc
            · exact absurd hproc (by simp)
            · next hne =>
              rw [Option.some_inj] at hproc
              subst hproc
              rw [Dict.get_set_self] at hdesc
              have hdc : d = clean_calculator_expression desc := by
                injection hdesc with h1
                injection h1 with h2
                exact h2.symm
              subst hdc
              exact ⟨hne, clean_calculator_expression_allowed desc⟩
          · exact absurd hproc (by simp)
        · next hncalc =>
          rw [Option.some_inj] at hproc
          subst hproc
          exact absurd htool hncalc
      · exact absurd hproc (by simp)
  · intro expr s hok
    unfold calculatorCheck at hok
    split at hok
    · exact absurd hok (by simp)
    · next hall =>
      dsimp only at hok
      split at hok
      · exact absurd hok (by simp)
      · split at hok
        · exact absurd hok (by simp)
        · rw [Except.ok.injEq] at hok
          subst hok
          rw [List.all_eq_true]
          intro c hc
          rw [List.mem_filter] at hc
          rw [Decidable.not_not, List.all_eq_true] at hall
          exact hall c hc.1

theorem c9_calculator_charset_witness :
    processPlannedTask c9Item
      = some [("id", .jint 1), ("description", .jstr "2 + 2"), ("tool", .jstr "calculator")]
    ∧ ("2 + 2" ≠ "" ∧ "2 + 2".data.all (· ∈ calcAllowedChars) = true)
    ∧ calculatorCheck "2 + 2" = .ok "2+2"
    ∧ "2+2".data.all (· ∈ calcAllowedChars) = true :=
  ⟨by decide,
   c9_calculator_charset.2.1 c9Item
     [("id", .jint 1), ("description", .jstr "2 + 2"), ("tool", .jstr "calculator")]
     "2 + 2" (by decide) (by decide) (by decide),
   by decide,
   c9_calculator_charset.2.2 "2 + 2" "2+2" (by decide)⟩

/-- C10: in an error-free final state, each completed result's payload
is rendered into the response parts as its enumerated line truncated to
the first 500 characters; the rendered text never exceeds 500 payload
characters, so a payload longer than 500 characters never appears in
full in its rendering. -/
theorem c10_response_truncates_success_payloads (s : WState)
    (h : s.error_message = "") (i : Nat) (p : String)
    (hm : (i, p) ∈ (successPayloads s.results).enumFrom 1) :
    (generate_response_step s).final_response
      = pyStrip (String.intercalate "\n" (responseParts s))
    ∧ (toString i ++ ". " ++ pyTake p 500) ∈ responseParts s
    ∧ (pyTake p 500).length ≤ 500
    ∧ (500 < p.length → pyTake p 500 ≠ p) := by
  refine ⟨?_, ?_, ?_, ?_⟩
  · unfold generate_response_step
    rw [if_neg (by simp [h])]
  · unfold responseParts
    dsimp only
    have hsucc : successPayloads s.results ≠ [] := by
      intro hnil
      rw [hnil] at hm
      simp [List.enumFrom] at hm
    rw [if_neg hsucc]
    rw [if_neg (by simp)]
    exact List.mem_append_left _ (List.mem_cons_of_mem _ (List.mem_map_of_mem _ hm))
  · show (⟨p.data.take 500⟩ : String).length ≤ 500
    have h1 : (p.data.take 500).length = min 500 p.data.length := by
      rw [List.length_take]
    have h2 : (⟨p.data.take 500⟩ : String).length = (p.data.take 500).length := rfl
    omega
  · intro hlong heq
    have hlen := congrArg String.length heq
    unfold pyTake at hlen
    simp only [String.length, List.length_take] at hlen
    have hm1 := Nat.min_le_left 500 p.data.length
    have hpl : p.length = p.data.length := rfl
    omega

set_option maxRecDepth 8192 in
theorem c10_response_truncates_success_payloads_witness :
    c10State.error_message = ""
    ∧ (1, longPayload) ∈ (successPayloads c10State.results).enumFrom 1
    ∧ 500 < longPayload.length
    ∧ (toString 1 ++ ". " ++ pyTake longPayload 500) ∈ responseParts c10State
    ∧ pyTake longPayload 500 ≠ longPayload :=
  ⟨rfl, by decide, by decide,
   (c10_response_truncates_success_payloads c10State rfl 1 longPayload (by decide)).2.1,
   (c10_response_truncates_success_payloads c10State rfl 1 longPayload
     (by decide)).2.2.2 (by decide)⟩

theorem foldl_max_bounds (ys : List Int) : ∀ x : Int,
    x ≤ ys.foldl max x ∧ ∀ j ∈ ys, j ≤ ys.foldl max x := by
  induction ys with
  | nil => intro x; exact ⟨le_refl x, by simp⟩
  | cons y ys ih =>
    intro x
    rw [List.foldl_cons]
    obtain ⟨h1, h2⟩ := ih (max x y)
    refine ⟨le_trans (le_max_left x y) h1, ?_⟩
    intro j hj
    rcases List.mem_cons.mp hj with rfl | hj
    · exact le_trans (le_max_right x j) h1
    · exact h2 j hj

theorem mem_intIds_le_maxIntId (tasks : List Dict) (j : Int) (hj : j ∈ intIds tasks) :
    j ≤ maxIntId tasks := by
  unfold maxIntId
  cases h : intIds tasks with
  | nil => rw [h] at hj; simp at hj
  | cons x xs =>
    rw [h] at hj
    rcases List.mem_cons.mp hj with rfl | hj
    · exact (foldl_max_bounds xs j).1
    · exact (foldl_max_bounds xs x).2 j hj

theorem assignedIds_ge (refs : List Refinement) : ∀ (c : Int) (i : Int),
    i ∈ assignedIds c refs → c ≤ i := by
  induction refs with
  | nil => intro c i hi; simp [assignedIds] at hi
  | cons r rs ih =>
    intro c i hi
    unfold assignedIds at hi
    split at hi
    · rcases List.mem_cons.mp hi with hi | hi
      · exact le_of_eq hi.symm
      · exact le_trans (by omega) (ih (c + 1) i hi)
    · exact ih c i hi

theorem assignedIds_pairwise (refs : List Refinement) : ∀ c : Int,
    (assignedIds c refs).Pairwise (· ≠ ·) := by
  induction refs with
  | nil => intro c; simp [assignedIds]
  | cons r rs ih =>
    intro c
    unfold assignedIds
    split
    · refine List.Pairwise.cons ?_ (ih (c + 1))
      intro i hi
      have := assignedIds_ge rs (c + 1) i hi
      omega
    · exact ih c

/-- C6, as stated, is false: the fresh-id counter is seeded once per
round, so after an interleaved `add` with explicit id 2 the id-less
`add` still receives id 2 even though a task with integer id 2 is
present at that point — the assigned id is not strictly greater than
every integer id present, and it duplicates the explicit one. -/
theorem c6_counterexample :
    assignedIds (maxIntId c6State.tasks + 1) (reflRefinements c6State) = [2]
    ∧ (2 : Int) ∈ intIds (applyRef (maxIntId c6State.tasks + 1, c6State.tasks) egAddExplicit2).2
    ∧ idList (refine_step c6State).tasks
      = [some (.jint 1), some (.jint 2), some (.jint 2)] := by
  decide

/-- C6 (amended): an `add` whose details omit the id is assigned an id
strictly greater than every integer id present in the task list at the
START of the refinement round (not at the point of application), and two
`add`s with omitted ids in the same round always receive distinct ids;
an interleaved `add` with an explicit id can, however, collide with a
subsequently assigned id. -/
theorem c6_omitted_add_ids_fresh (tasks : List Dict) (refs : List Refinement) :
    (assignedIds (maxIntId tasks + 1) refs).Pairwise (· ≠ ·)
    ∧ ∀ i ∈ assignedIds (maxIntId tasks + 1) refs, ∀ j ∈ intIds tasks, j < i := by
  refine ⟨assignedIds_pairwise refs (maxIntId tasks + 1), ?_⟩
  intro i hi j hj
  have h1 := assignedIds_ge refs (maxIntId tasks + 1) i hi
  have h2 := mem_intIds_le_maxIntId tasks j hj
  omega

theorem c6_omitted_add_ids_fresh_witness :
    (assignedIds (maxIntId egTasks1 + 1) [egAddOmitted, egAddOmitted]).Pairwise (· ≠ ·)
    ∧ (1 : Int) < 2 :=
  ⟨(c6_omitted_add_ids_fresh egTasks1 [egAddOmitted, egAddOmitted]).1,
   (c6_omitted_add_ids_fresh egTasks1 [egAddOmitted, egAddOmitted]).2
     2 (by decide) 1 (by decide)⟩

theorem pyGet_ne_null (t : Dict) (k : String) : Dict.pyGet t k ≠ some .jnull := by
  unfold Dict.pyGet optJ
  split
  · simp
  · next h =>
    intro hc
    rw [hc] at h
    exact h rfl

theorem pyGet_some_get (t : Dict) (k : String) (v : JVal)
    (h : Dict.pyGet t k = some v) : Dict.get t k = some v := by
  unfold Dict.pyGet at h
  cases hg : Dict.get t k with
  | none =>
    rw [hg] at h
    exact absurd h (by simp [optJ])
  | some w =>
    rw [hg] at h
    cases w with
    | jnull => exact absurd h (by simp [optJ])
    | jbool b => exact h
    | jint n => exact h
    | jstr s => exact h

theorem hasKey_cons_false (k : String) (v : JVal) (rest : Dict)
    (h : Dict.hasKey ((k, v) :: rest) "id" = false) :
    k ≠ "id" ∧ Dict.hasKey rest "id" = false := by
  unfold Dict.hasKey Dict.get at h
  by_cases hk : k = "id"
  · rw [if_pos hk] at h
    simp at h
  · rw [if_neg hk] at h
    exact ⟨hk, h⟩

theorem updateWith_get_id (upd : Dict) : ∀ t : Dict,
    Dict.hasKey upd "id" = false →
    Dict.get (Dict.updateWith t upd) "id" = Dict.get t "id" := by
  induction upd with
  | nil => intro t _; rfl
  | cons kv rest ih =>
    intro t h
    obtain ⟨k, v⟩ := kv
    obtain ⟨hk, hrest⟩ := hasKey_cons_false k v rest h
    have hstep : Dict.updateWith t ((k, v) :: rest)
        = Dict.updateWith (Dict.set t k v) rest := rfl
    rw [hstep, ih (Dict.set t k v) hrest,
      Dict.get_set_ne t k "id" v (fun hc => hk hc.symm)]

theorem modifyFirst_map_get (tid : JVal) (d : Dict)
    (hd : Dict.hasKey d "id" = false) : ∀ ts : List Dict,
    (modifyFirst ts tid d).map (fun t => Dict.get t "id")
      = ts.map (fun t => Dict.get t "id") := by
  intro ts
  induction ts with
  | nil => rfl
  | cons t rest ih =>
    unfold modifyFirst
    split
    · simp only [List.map_cons]
      rw [updateWith_get_id d t hd]
    · simp only [List.map_cons, ih]

theorem idList_congr (ts1 ts2 : List Dict)
    (h : ts1.map (fun t => Dict.get t "id") = ts2.map (fun t => Dict.get t "id")) :
    idList ts1 = idList ts2 := by
  have key : ∀ ts : List Dict,
      idList ts = (ts.map (fun t => Dict.get t "id")).map optJ := by
    intro ts
    rw [List.map_map]
    rfl
  rw [key, key, h]

theorem intIds_congr (ts1 : List Dict) : ∀ ts2 : List Dict,
    ts1.map (fun t => Dict.get t "id") = ts2.map (fun t => Dict.get t "id") →
    intIds ts1 = intIds ts2 := by
  induction ts1 with
  | nil =>
    intro ts2 h
    cases ts2 with
    | nil => rfl
    | cons t rest => simp at h
  | cons t rest ih =>
    intro ts2 h
    cases ts2 with
    | nil => simp at h
    | cons t2 rest2 =>
      simp only [List.map_cons, List.cons.injEq] at h
      unfold intIds
      simp only [List.filterMap_cons]
      rw [h.1]
      have htail := ih rest2 h.2
      unfold intIds at htail
      rw [htail]

theorem mem_intIds_of_get (ts : List Dict) (t : Dict) (ht : t ∈ ts) (n : Int)
    (h : idToInt (Dict.get t "id") = some n) : n ∈ intIds ts := by
  unfold intIds
  rw [List.mem_filterMap]
  refine ⟨t, ht, ?_⟩
  cases hg : Dict.get t "id" with
  | none => rw [hg] at h; exact absurd h (by simp [idToInt])
  | some w =>
    rw [hg] at h
    cases w with
    | jnull => exact absurd h (by simp [idToInt])
    | jbool b => exact h
    | jint m => exact h
    | jstr s => exact absurd h (by simp [idToInt])

theorem mem_intIds_elim (ts : List Dict) (j : Int) (hj : j ∈ intIds ts) :
    ∃ t ∈ ts, idToInt (Dict.get t "id") = some j := by
  unfold intIds at hj
  rw [List.mem_filterMap] at hj
  obtain ⟨t, ht, hf⟩ := hj
  refine ⟨t, ht, ?_⟩
  cases hg : Dict.get t "id" with
  | none => rw [hg] at hf; exact absurd hf (by simp)
  | some w =>
    rw [hg] at hf
    cases w with
    | jnull => exact absurd hf (by simp)
    | jbool b => exact hf
    | jint m => exact hf
    | jstr s => exact absurd hf (by simp)

theorem intIds_singleton_int (d : Dict) (c : Int)
    (h : Dict.get d "id" = some (.jint c)) : intIds [d] = [c] := by
  unfold intIds
  simp only [List.filterMap_cons, List.filterMap_nil, h]

theorem idList_append_single (ts : List Dict) (d : Dict) :
    idList (ts ++ [d]) = idList ts ++ [Dict.pyGet d "id"] := by
  unfold idList
  rw [List.map_append]
  rfl

theorem fresh_id_not_pyEq (ts : List Dict) (c : Int)
    (hb : ∀ j ∈ intIds ts, j < c) :
    ∀ a ∈ idList ts, pyEqO a (some (.jint c)) = false := by
  intro a ha
  rcases List.mem_map.mp ha with ⟨t, ht, rfl⟩
  cases hg : Dict.pyGet t "id" with
  | none => rfl
  | some v =>
    have hraw := pyGet_some_get t "id" v hg
    cases v with
    | jnull => exact absurd hg (pyGet_ne_null t "id")
    | jint n =>
      have hn : n ∈ intIds ts := mem_intIds_of_get ts t ht n (by rw [hraw]; rfl)
      have hlt := hb n hn
      simp only [pyEqO, pyEq, JVal.toIntVal]
      simp
      omega
    | jbool b =>
      have hn : (if b then (1 : Int) else 0) ∈ intIds ts :=
        mem_intIds_of_get ts t ht _ (by rw [hraw]; rfl)
      have hlt := hb _ hn
      simp only [pyEqO, pyEq, JVal.toIntVal]
      simp
      omega
    | jstr s =>
      simp [pyEqO, pyEq, JVal.toIntVal]

theorem applyRef_preserves (c : Int) (ts : List Dict) (r : Refinement)
    (hsafe : SafeRef r) (hu : uniqueIds ts) (hb : ∀ j ∈ intIds ts, j < c) :
    uniqueIds (applyRef (c, ts) r).2
    ∧ (∀ j ∈ intIds (applyRef (c, ts) r).2, j < (applyRef (c, ts) r).1)
    ∧ c ≤ (applyRef (c, ts) r).1 := by
  obtain ⟨hsafeM, hsafeA⟩ := hsafe
  unfold applyRef
  dsimp only
  split
  · -- remove: filter is a sublist, ids only disappear
    refine ⟨?_, ?_, le_refl c⟩
    · exact List.Pairwise.sublist
        (List.Sublist.map _ (List.filter_sublist ts)) hu
    · intro j hj
      obtain ⟨t, ht, hf⟩ := mem_intIds_elim _ j hj
      exact hb j (mem_intIds_of_get ts t (List.mem_of_mem_filter ht) j hf)
  · split
    · -- modify
      next hguard =>
      split
      all_goals try exact ⟨hu, fun j hj => hb j hj, le_refl c⟩
      next x1 x2 d tid heq1 heq2 =>
        have hsd : Dict.hasKey d "id" = false := by
          have hs := hsafeM hguard.1
          rw [heq1] at hs
          simpa [safeModifyDetails] using hs
        have hmap := modifyFirst_map_get tid d hsd ts
        refine ⟨?_, ?_, le_refl c⟩
        · show (idList (modifyFirst ts tid d)).Pairwise fun a b => pyEqO a b = false
          rw [idList_congr _ _ hmap]
          exact hu
        · intro j hj
          dsimp only at hj
          rw [intIds_congr _ _ hmap] at hj
          exact hb j hj
      next x1 x2 l tid heq1 heq2 =>
        have hsd : Dict.hasKey l "id" = false := by
          have hs := hsafeM hguard.1
          rw [heq1] at hs
          simpa [safeModifyDetails] using hs
        have hmap := modifyFirst_map_get tid l hsd ts
        refine ⟨?_, ?_, le_refl c⟩
        · show (idList (modifyFirst ts tid l)).Pairwise fun a b => pyEqO a b = false
          rw [idList_congr _ _ hmap]
          exact hu
        · intro j hj
          dsimp only at hj
          rw [intIds_congr _ _ hmap] at hj
          exact hb j hj
    · split
      · -- add
        next hguard =>
        split
        all_goals try exact ⟨hu, fun j hj => hb j hj, le_refl c⟩
        next x1 d heq1 =>
          have hid : Dict.pyGet d "id" = none := by
            have hs := hsafeA hguard.1
            rw [heq1] at hs
            simpa [safeAddDetails] using hs
          rw [if_pos hid]
          have hget2 : Dict.get (Dict.set d "id" (.jint c)) "id" = some (.jint c) :=
            Dict.get_set_self d "id" (.jint c)
          have hpy2 : Dict.pyGet (Dict.set d "id" (.jint c)) "id" = some (.jint c) := by
            unfold Dict.pyGet
            rw [hget2]
            rfl
          split
          · -- the add is appended with the freshly assigned id
            refine ⟨?_, ?_, by omega⟩
            · show (idList (ts ++ [Dict.set d "id" (.jint c)])).Pairwise
                fun a b => pyEqO a b = false
              rw [idList_append_single, List.pairwise_append]
              refine ⟨hu, by simp, ?_⟩
              intro a ha b hb2
              rw [List.mem_singleton] at hb2
              subst hb2
              rw [hpy2]
              exact fresh_id_not_pyEq ts c hb a ha
            · intro j hj
              dsimp only at hj
              have happ : intIds (ts ++ [Dict.set d "id" (.jint c)])
                  = intIds ts ++ intIds [Dict.set d "id" (.jint c)] := by
                unfold intIds
                rw [List.filterMap_append]
              rw [happ, intIds_singleton_int _ c hget2] at hj
              rcases List.mem_append.mp hj with hj | hj
              · have := hb j hj
                dsimp only
                omega
              · rw [List.mem_singleton] at hj
                dsimp only
                omega
          · -- required fields missing: skipped, counter still advanced
            refine ⟨hu, ?_, by omega⟩
            intro j hj
            dsimp only at hj ⊢
            have := hb j hj
            omega
      · exact ⟨hu, fun j hj => hb j hj, le_refl c⟩

theorem applyRefs_fold_preserves (refs : List Refinement) : ∀ (c : Int) (ts : List Dict),
    (∀ r ∈ refs, SafeRef r) → uniqueIds ts → (∀ j ∈ intIds ts, j < c) →
    uniqueIds (refs.foldl applyRef (c, ts)).2 := by
  induction refs with
  | nil => intro c ts _ hu _; exact hu
  | cons r rs ih =>
    intro c ts hsafe hu hb
    rw [List.foldl_cons]
    obtain ⟨h1, h2, _⟩ :=
      applyRef_preserves c ts r (hsafe r (List.mem_cons_self r rs)) hu hb
    have hrec := ih (applyRef (c, ts) r).1 (applyRef (c, ts) r).2
      (fun r2 hr2 => hsafe r2 (List.mem_cons_of_mem r hr2)) h1 h2
    rw [Prod.mk.eta] at hrec
    exact hrec

/-- C8, as stated, is false: an `add` instruction whose explicit id
equals an existing task's id is appended without any duplicate check,
so a task list with unique ids can end the round with two tasks of
id 1. -/
theorem c8_counterexample :
    uniqueIds c8State.tasks ∧ ¬ uniqueIds (refine_step c8State).tasks := by
  decide

/-- C8 (amended): id uniqueness is preserved by every refinement round
whose instructions carry no explicit id — removes, modifies whose
payload has no `id` field, and adds with an omitted (or null) id; an
`add` with an explicit id already present, or a `modify` whose payload
sets `id` to an existing id, can break uniqueness. -/
theorem c8_safe_refinements_preserve_unique_ids (s : WState)
    (hsafe : ∀ r ∈ reflRefinements s, SafeRef r) (hu : uniqueIds s.tasks) :
    uniqueIds (refine_step s).tasks := by
  unfold refine_step
  dsimp only
  split
  · exact hu
  · dsimp only
    apply applyRefs_fold_preserves _ _ _ hsafe hu
    intro j hj
    have := mem_intIds_le_maxIntId s.tasks j hj
    omega

theorem c8_safe_refinements_preserve_unique_ids_witness :
    uniqueIds (refine_step c8wState).tasks :=
  c8_safe_refinements_preserve_unique_ids c8wState (by decide) (by decide)

end Workflow
